import Mathlib

/- Shallow embedding of pthomison/ddbstore (store.go, constants.go): a
   gorilla/sessions Store backed by DynamoDB. External collaborators — the
   securecookie codecs, the DynamoDB client and the HTTP plumbing — are
   modelled as oracle parameters and explicit response values; the
   repository's own control flow is translated statement by statement. -/

/-- Backend and codec errors, carried as opaque strings. -/
abbrev Err := String

/-- DynamoDB attribute values, restricted to the member kinds this code
constructs or asserts (types.AttributeValueMemberS / MemberN). -/
inductive AttributeValue where
  | S (value : String)
  | N (value : String)
  deriving DecidableEq

/-- An item: a map from attribute name to attribute value. -/
abbrev Item := List (String × AttributeValue)

/-- Go map indexing on an item (first binding wins; Go maps have no
duplicates). -/
def itemLookup : Item → String → Option AttributeValue
  | [], _ => none
  | (k, v) :: rest, a => if k = a then some v else itemLookup rest a

/-- Whether an optional attribute value is a string member, i.e. whether the
type assertion `.(*types.AttributeValueMemberS)` on it would succeed. -/
def isStringAttr : Option AttributeValue → Bool
  | some (.S _) => true
  | _ => false

/-- The backing DynamoDB table: items keyed by the uuid partition key. -/
abbrev Table := List (String × Item)

/-- GetItem-style point lookup on the table state. -/
def tableLookup : Table → String → Option Item
  | [], _ => none
  | (k, v) :: rest, id => if k = id then some v else tableLookup rest id

/-- Effect of client.DeleteItem on the table state: removes the binding for
the key; idempotent, deleting an absent key is a no-op. -/
def deleteItem : Table → String → Table
  | [], _ => []
  | (k, v) :: rest, id =>
    if k = id then deleteItem rest id else (k, v) :: deleteItem rest id

/-- Effect of client.PutItem on the table state: unconditional upsert of the
full item under the key. -/
def putItem (t : Table) (id : String) (item : Item) : Table :=
  (id, item) :: deleteItem t id

namespace sessions

/-- Cookie options (gorilla sessions.Options). Only MaxAge is ever set or
read by this repository, so the remaining fields are omitted. -/
structure Options where
  MaxAge : Int
  deriving DecidableEq

end sessions

/-- The session values map. The codecs treat it opaquely, so it is modelled
as a concrete assoc list of strings. -/
abbrev SessionValues := List (String × String)

/-- The gorilla sessions.Session fields this code reads or writes. -/
structure Session where
  ID : String
  name : String
  Values : SessionValues
  IsNew : Bool
  Options : sessions.Options
  deriving DecidableEq

/-- Column-name constants from constants.go. -/
def dynamodbUuidColumnName : String := "uuid"

/-- Name of the expiration column (constants.go). -/
def dynamodbExpirationColumnName : String := "expiration"

/-- Name of the data column (constants.go). -/
def dynamodbDataColumnName : String := "data"

/-- Retention window for backend records, constants.go: 60 * time.Minute,
expressed in seconds since save applies it through time.Time.Unix. -/
def expiryTime : Int := 60 * 60

/-- dynamodb.GetItemOutput: Item is nil exactly when the key is absent. -/
structure GetItemOutput where
  Item : Option Item
  deriving DecidableEq

/-- The (output, err) pair returned by client.GetItem. The SDK returns a nil
output pointer exactly when err is non-nil; both components are modelled so
load's own checking order can be followed faithfully. -/
structure GetItemResponse where
  output : Option GetItemOutput
  err : Option Err
  deriving DecidableEq

/-- Outcome of DdbStore.load: a normal (possibly nil-error) return, or a Go
runtime panic (nil-pointer dereference or failed type assertion). -/
inductive LoadOutcome where
  | ok (session : Session)
  | err (e : Err)
  | panic
  deriving DecidableEq

/-- DdbStore.load, store.go lines 190-218. `decodeValues` is the
securecookie.DecodeMulti oracle used on the data payload; `resp` is the
client.GetItem response for the session's ID. The code tests
output.Item == nil before testing err, so a nil output (how the SDK reports
a transport error) dereferences a nil pointer: panic. The data attribute is
extracted with an unchecked type assertion, another panic point. -/
def DdbStore.load (decodeValues : String → String → Except Err SessionValues)
    (session : Session) (resp : GetItemResponse) : LoadOutcome :=
  match resp.output with
  | none => .panic
  | some output =>
    match output.Item with
    | none => .ok session
    | some item =>
      match resp.err with
      | some e => .err e
      | none =>
        match itemLookup item "data" with
        | some (.S encodedData) =>
          match decodeValues session.name encodedData with
          | .ok values => .ok { session with Values := values }
          | .error e => .err e
        | _ => .panic

/-- Result of DdbStore.New: the (session, error) pair it returns, or a panic
propagated from load. -/
inductive NewOutcome where
  | ret (session : Session) (err : Option Err)
  | panic
  deriving DecidableEq

/-- DdbStore.New, store.go lines 84-100. `opts` is the store's default
Options, copied by value into the session (the pointer discipline of that
copy is modelled separately with OptionsHeap); `decodeID` is the
securecookie.DecodeMulti oracle for the cookie value; `cookie` is the request
cookie for `name` (none when r.Cookie fails); `respond` gives the
client.GetItem response for each looked-up key. IsNew is cleared exactly when
load returns a nil error. -/
def DdbStore.New (opts : sessions.Options)
    (decodeID : String → String → Except Err String)
    (decodeValues : String → String → Except Err SessionValues)
    (name : String) (cookie : Option String)
    (respond : String → GetItemResponse) : NewOutcome :=
  let session : Session :=
    { ID := "", name := name, Values := [], IsNew := true, Options := opts }
  match cookie with
  | none => .ret session none
  | some value =>
    match decodeID name value with
    | .error e => .ret session (some e)
    | .ok id =>
      let session := { session with ID := id }
      match DdbStore.load decodeValues session (respond id) with
      | .panic => .panic
      | .err e => .ret session (some e)
      | .ok session2 => .ret { session2 with IsNew := false } none

/-- DdbStore.save, store.go lines 155-187. Encodes session.Values with the
securecookie.EncodeMulti oracle `encodeValues`, stamps an absolute expiration
of now + expiryTime (time.Now().Add(expiryTime).Unix()), and unconditionally
calls client.PutItem with the three-attribute item. `putErr` injects a
backend error on the PutItem call, in which case nothing is written. Returns
the updated table or the propagated error. -/
def DdbStore.save (encodeValues : String → SessionValues → Except Err String)
    (now : Int) (putErr : Option Err) (t : Table) (session : Session) :
    Except Err Table :=
  match encodeValues session.name session.Values with
  | .error e => .error e
  | .ok encoded =>
    let expiration := now + expiryTime
    let item : Item :=
      [(dynamodbUuidColumnName, .S session.ID),
       (dynamodbExpirationColumnName, .N (toString expiration)),
       (dynamodbDataColumnName, .S encoded)]
    match putErr with
    | some e => .error e
    | none => .ok (putItem t session.ID item)

/-- DdbStore.erase, store.go lines 221-234: client.DeleteItem on the
session's ID; `delErr` injects a backend error (nothing deleted then). -/
def DdbStore.erase (delErr : Option Err) (t : Table) (session : Session) :
    Except Err Table :=
  match delErr with
  | some e => .error e
  | none => .ok (deleteItem t session.ID)

/-- A response cookie as produced by sessions.NewCookie and http.SetCookie:
its name, value, and the options it was built from. The HTTP layer serializes
a non-positive options MaxAge as an immediately-expiring cookie. -/
structure Cookie where
  name : String
  value : String
  options : sessions.Options
  deriving DecidableEq

/-- Result of DdbStore.Save: the final table state, the session as mutated in
place, the cookies set on the response, and the returned error. -/
structure SaveResult where
  table : Table
  session : Session
  cookies : List Cookie
  err : Option Err
  deriving DecidableEq

/-- DdbStore.Save, store.go lines 103-139. `freshID` stands for the
identifier a minting would produce, base32RawStdEncoding.EncodeToString of
securecookie.GenerateRandomKey 32; `encodeID` is the EncodeMulti oracle for
the outbound cookie token. session2 models the in-place assignment to
session.ID on lines 121-124. -/
def DdbStore.Save (encodeValues : String → SessionValues → Except Err String)
    (encodeID : String → String → Except Err String)
    (now : Int) (delErr putErr : Option Err) (freshID : String)
    (t : Table) (session : Session) : SaveResult :=
  if session.Options.MaxAge ≤ 0 then
    match DdbStore.erase delErr t session with
    | .error e => ⟨t, session, [], some e⟩
    | .ok t2 => ⟨t2, session, [⟨session.name, "", session.Options⟩], none⟩
  else
    let session2 := if session.ID = "" then { session with ID := freshID } else session
    match DdbStore.save encodeValues now putErr t session2 with
    | .error e => ⟨t, session2, [], some e⟩
    | .ok t2 =>
      match encodeID session2.name session2.ID with
      | .error e => ⟨t2, session2, [], some e⟩
      | .ok encoded => ⟨t2, session2, [⟨session2.name, encoded, session2.Options⟩], none⟩

/-- Scalar attribute types used in the table's key schema. -/
inductive ScalarAttributeType where
  | S
  | N
  | B
  deriving DecidableEq

/-- Key roles in the table's key schema. -/
inductive KeyType where
  | HASH
  | RANGE
  deriving DecidableEq

/-- Table billing modes: provisioned throughput or on-demand. -/
inductive BillingMode where
  | PROVISIONED
  | PAY_PER_REQUEST
  deriving DecidableEq

/-- DynamoDB control-plane calls issued during provisioning, in order. -/
inductive DdbCall where
  | describeTable (tableName : String)
  | createTable (tableName : String)
      (attributeDefinitions : List (String × ScalarAttributeType))
      (keySchema : List (String × KeyType))
      (billingMode : BillingMode)
  | sleepSeconds (n : Nat)
  | updateTimeToLive (tableName : String) (attributeName : String) (enabled : Bool)
  deriving DecidableEq

/-- Discriminates CreateTable calls in a provisioning trace. -/
def DdbCall.isCreateTable : DdbCall → Bool
  | .createTable _ _ _ _ => true
  | _ => false

/-- Outcome of client.DescribeTable as the code discriminates it: success,
a types.ResourceNotFoundException, or any other error. -/
inductive DescribeResult where
  | ok
  | notFound
  | otherErr (e : Err)
  deriving DecidableEq

/-- DdbStore.createTable, store.go lines 236-273: CreateTable with a single
string partition key (uuid, type S, role HASH) and pay-per-request billing;
an unconditional 10-second sleep; then UpdateTimeToLive enabling expiry on
the expiration attribute. `createErr` and `ttlErr` inject backend errors on
the two calls. Returns the calls issued, in order, and the returned error. -/
def DdbStore.createTable (tableName : String) (createErr ttlErr : Option Err) :
    List DdbCall × Option Err :=
  let create := DdbCall.createTable tableName
    [(dynamodbUuidColumnName, .S)] [(dynamodbUuidColumnName, .HASH)]
    .PAY_PER_REQUEST
  match createErr with
  | some e => ([create], some e)
  | none =>
    let ttl := DdbCall.updateTimeToLive tableName dynamodbExpirationColumnName true
    match ttlErr with
    | some e => ([create, .sleepSeconds 10, ttl], some e)
    | none => ([create, .sleepSeconds 10, ttl], none)

/-- DdbStore.ensureTable, store.go lines 275-292: DescribeTable; when it
fails with ResourceNotFoundException, fall through to createTable; any other
describe error is returned as-is; a successful describe does nothing more. -/
def DdbStore.ensureTable (tableName : String) (describe : DescribeResult)
    (createErr ttlErr : Option Err) : List DdbCall × Option Err :=
  match describe with
  | .ok => ([.describeTable tableName], none)
  | .otherErr e => ([.describeTable tableName], some e)
  | .notFound =>
    let r := DdbStore.createTable tableName createErr ttlErr
    (.describeTable tableName :: r.1, r.2)

/-- Heap of sessions.Options cells: an address is an index and allocation
appends. Models the Go pointer aliasing of the Options fields, which the
value-semantics Session above abstracts away. -/
abbrev OptionsHeap := List sessions.Options

/-- Dereference an Options pointer. -/
def heapGet (h : OptionsHeap) (a : Nat) : sessions.Options :=
  h.getD a ⟨0⟩

/-- Write through an Options pointer. -/
def heapSet (h : OptionsHeap) (a : Nat) (o : sessions.Options) : OptionsHeap :=
  h.set a o

/-- Allocate a fresh Options cell, returning the new heap and its address. -/
def heapAlloc (h : OptionsHeap) (o : sessions.Options) : OptionsHeap × Nat :=
  (h ++ [o], h.length)

/-- Lines 85-87 of store.go under the heap model: opts := *s.Options takes a
value copy of the store's default Options, and session.Options = &opts points
the session at a freshly allocated cell holding that copy. Returns the new
heap and the session's Options address. -/
def newSessionOptionsAlloc (h : OptionsHeap) (storeAddr : Nat) :
    OptionsHeap × Nat :=
  heapAlloc h (heapGet h storeAddr)

/-- DdbStore.MaxAge, store.go lines 141-150, under the heap model: writes age
through the store's shared Options pointer (the codec MaxAge propagation is
internal securecookie state and not modelled). -/
def DdbStore.MaxAge (h : OptionsHeap) (storeAddr : Nat) (age : Int) :
    OptionsHeap :=
  heapSet h storeAddr { heapGet h storeAddr with MaxAge := age }

/- Helper lemmas about the table state and the Options heap. -/

theorem tableLookup_deleteItem_self (t : Table) (id : String) :
    tableLookup (deleteItem t id) id = none := by
  induction t with
  | nil => rfl
  | cons p rest ih =>
    obtain ⟨k, v⟩ := p
    by_cases h : k = id
    · simpa [deleteItem, h] using ih
    · simp [deleteItem, tableLookup, h, ih]

theorem tableLookup_deleteItem_ne (t : Table) (id k : String) (h : k ≠ id) :
    tableLookup (deleteItem t id) k = tableLookup t k := by
  induction t with
  | nil => rfl
  | cons p rest ih =>
    obtain ⟨k2, v⟩ := p
    by_cases h2 : k2 = id
    · have hk : ¬ k2 = k := fun hh => h (hh ▸ h2)
      simp only [deleteItem, if_pos h2, tableLookup, if_neg hk]
      exact ih
    · simp only [deleteItem, if_neg h2, tableLookup]
      by_cases h3 : k2 = k
      · simp [h3]
      · simp only [if_neg h3]
        exact ih

theorem tableLookup_putItem_self (t : Table) (id : String) (item : Item) :
    tableLookup (putItem t id item) id = some item := by
  simp [putItem, tableLookup]

theorem tableLookup_putItem_ne (t : Table) (id k : String) (item : Item)
    (h : k ≠ id) :
    tableLookup (putItem t id item) k = tableLookup t k := by
  simp only [putItem, tableLookup, if_neg (fun hh : id = k => h hh.symm)]
  exact tableLookup_deleteItem_ne t id k h

theorem heapGet_alloc_fresh (h : OptionsHeap) (o : sessions.Options) :
    heapGet (h ++ [o]) h.length = o := by
  simp [heapGet, List.getElem?_concat_length]

theorem heapGet_append_lt (h : OptionsHeap) (o : sessions.Options) (a : Nat)
    (ha : a < h.length) :
    heapGet (h ++ [o]) a = heapGet h a := by
  simp [heapGet, List.getElem?_append_left ha]

theorem heapGet_set_self (h : OptionsHeap) (a : Nat) (o : sessions.Options)
    (ha : a < h.length) :
    heapGet (heapSet h a o) a = o := by
  simp [heapGet, heapSet, List.getElem?_set_self ha]

theorem heapGet_set_ne (h : OptionsHeap) (a b : Nat) (o : sessions.Options)
    (hab : a ≠ b) :
    heapGet (heapSet h a o) b = heapGet h b := by
  simp [heapGet, heapSet, List.getElem?_set_ne hab]

/-- The session handed back by DdbStore.Save: the identifier is minted
exactly when the save branch runs on an empty ID, and the session is never
otherwise mutated, whatever the backend or codec outcomes. -/
theorem DdbStore.Save_session
    (encodeValues : String → SessionValues → Except Err String)
    (encodeID : String → String → Except Err String) (now : Int)
    (delErr putErr : Option Err) (freshID : String) (t : Table)
    (session : Session) :
    (DdbStore.Save encodeValues encodeID now delErr putErr freshID t
        session).session
      = if session.Options.MaxAge ≤ 0 then session
        else if session.ID = "" then { session with ID := freshID }
        else session := by
  unfold DdbStore.Save
  by_cases hma : session.Options.MaxAge ≤ 0
  · simp only [if_pos hma]
    split <;> rfl
  · simp only [if_neg hma]
    by_cases hid : session.ID = ""
    · simp only [if_pos hid]
      split
      · rfl
      · split <;> rfl
    · simp only [if_neg hid]
      split
      · rfl
      · split <;> rfl

/-- C1: evidence for the divergence. A request cookie that decodes to the
identifier "abc" while the backing table has no record for it (GetItem
returns an output with a nil Item and no error) makes New return the session
with empty Values and a nil error, but with IsNew = false: load reports an
absent item as success, so New clears IsNew, contrary to the Fresh-session
behaviour (is-new = true) the claim states. -/
theorem c1_new_missing_record_is_not_marked_new :
    DdbStore.New ⟨2592000⟩ (fun _ _ => .ok "abc") (fun _ _ => .ok [])
      "test-session" (some "tok") (fun _ => ⟨some ⟨none⟩, none⟩)
      = .ret ⟨"abc", "test-session", [], false, ⟨2592000⟩⟩ none := by
  rfl

/-- C2: counterexample. With an inbound cookie whose decode fails, New does
return the decode error to its caller (err = some "decode failure", not
none), refuting the claim that no error is surfaced; the session returned
alongside it is Fresh. -/
theorem c2_counterexample_decode_error_is_returned :
    DdbStore.New ⟨2592000⟩ (fun _ _ => .error "decode failure")
      (fun _ _ => .ok []) "test-session" (some "garbage")
      (fun _ => ⟨some ⟨none⟩, none⟩)
      = .ret ⟨"", "test-session", [], true, ⟨2592000⟩⟩ (some "decode failure")
    ∧ some "decode failure" ≠ (none : Option Err) := by
  exact ⟨rfl, by simp⟩

/-- C2 amended: whenever the inbound cookie fails to authenticate or parse,
New falls back to a Fresh session (empty ID, empty Values, IsNew = true) and
makes no backend call (the result is independent of the GetItem oracle), but
the decode error is returned to the caller alongside the session rather than
recovered locally. -/
theorem c2_new_decode_error_fresh_session (opts : sessions.Options)
    (decodeID : String → String → Except Err String)
    (decodeValues : String → String → Except Err SessionValues)
    (name value : String) (respond : String → GetItemResponse) (e : Err)
    (h : decodeID name value = .error e) :
    DdbStore.New opts decodeID decodeValues name (some value) respond
      = .ret ⟨"", name, [], true, opts⟩ (some e) := by
  simp only [DdbStore.New, h]

/-- C2 amended, witnessed at a concrete failing decode. -/
theorem c2_new_decode_error_fresh_session_witness :
    DdbStore.New ⟨0⟩ (fun _ _ => .error "bad") (fun _ _ => .ok []) "n"
      (some "v") (fun _ => ⟨none, none⟩)
      = .ret ⟨"", "n", [], true, ⟨0⟩⟩ (some "bad") :=
  c2_new_decode_error_fresh_session ⟨0⟩ (fun _ _ => .error "bad")
    (fun _ _ => .ok []) "n" "v" (fun _ => ⟨none, none⟩) "bad" rfl

/-- C3: evidence for the divergence. When GetItem fails with a transport
error the SDK returns a nil output together with the error, and load
dereferences output.Item before checking err: the result is a panic, not the
error returned verbatim (the err check on line 207 is unreachable here). The
other half of the claim does hold: an absent record (non-nil output, nil
Item, nil err) yields a nil error. -/
theorem c3_load_transport_error_panics :
    DdbStore.load (fun _ _ => .ok []) ⟨"abc", "n", [], true, ⟨0⟩⟩
      ⟨none, some "timeout"⟩ = .panic
    ∧ DdbStore.load (fun _ _ => .ok []) ⟨"abc", "n", [], true, ⟨0⟩⟩
      ⟨some ⟨none⟩, none⟩ = .ok ⟨"abc", "n", [], true, ⟨0⟩⟩ := by
  exact ⟨rfl, rfl⟩

/-- C9: for every stored item that carries no "data" attribute of string
member type, load's unchecked type assertion fails: load panics, for every
decode oracle — there is no error-returning branch for this shape — and the
panic propagates through the public New whenever the cookie decodes to an
identifier whose record is such an item. -/
theorem c9_load_nonstring_data_panics
    (decodeValues : String → String → Except Err SessionValues)
    (session : Session) (item : Item)
    (h : isStringAttr (itemLookup item "data") = false) :
    DdbStore.load decodeValues session ⟨some ⟨some item⟩, none⟩ = .panic
    ∧ (∀ (opts : sessions.Options)
        (decodeID : String → String → Except Err String)
        (name value id : String), decodeID name value = .ok id →
        DdbStore.New opts decodeID decodeValues name (some value)
          (fun _ => ⟨some ⟨some item⟩, none⟩) = .panic) := by
  have hgen : ∀ s : Session,
      DdbStore.load decodeValues s ⟨some ⟨some item⟩, none⟩ = .panic := by
    intro s
    simp only [DdbStore.load]
    cases hl : itemLookup item "data" with
    | none => rfl
    | some v =>
      cases v with
      | S d =>
        rw [hl] at h
        simp [isStringAttr] at h
      | N d => rfl
  refine ⟨hgen session, ?_⟩
  intro opts decodeID name value id hdec
  simp only [DdbStore.New, hdec]
  rw [hgen]

/-- C9, witnessed at a concrete item that lacks a data attribute. -/
theorem c9_load_nonstring_data_panics_witness :
    DdbStore.load (fun _ _ => .ok []) ⟨"x", "n", [], true, ⟨0⟩⟩
      ⟨some ⟨some [("uuid", .S "x"), ("expiration", .N "99")]⟩, none⟩
      = .panic :=
  (c9_load_nonstring_data_panics (fun _ _ => .ok []) ⟨"x", "n", [], true, ⟨0⟩⟩
    [("uuid", .S "x"), ("expiration", .N "99")] rfl).1

/-- C4: Save with a non-positive MaxAge erases the backend record — the
resulting table is the DeleteItem image, so a subsequent get of the
session's identifier is absent — sets exactly one response cookie with empty
value built from the session's non-positive-MaxAge options (serialized by the
HTTP layer as immediately expiring), and returns no error; and when the
DeleteItem fails, that error is returned, the table is untouched, and no
cookie is set. -/
theorem c4_save_nonpositive_maxage_erases
    (encodeValues : String → SessionValues → Except Err String)
    (encodeID : String → String → Except Err String) (now : Int)
    (putErr : Option Err) (freshID : String) (t : Table) (session : Session)
    (h : session.Options.MaxAge ≤ 0) :
    DdbStore.Save encodeValues encodeID now none putErr freshID t session
      = ⟨deleteItem t session.ID, session,
         [⟨session.name, "", session.Options⟩], none⟩
    ∧ tableLookup (DdbStore.Save encodeValues encodeID now none putErr
        freshID t session).table session.ID = none
    ∧ ∀ e : Err,
        DdbStore.Save encodeValues encodeID now (some e) putErr freshID t
          session = ⟨t, session, [], some e⟩ := by
  have h1 : DdbStore.Save encodeValues encodeID now none putErr freshID t
      session
      = ⟨deleteItem t session.ID, session,
         [⟨session.name, "", session.Options⟩], none⟩ := by
    unfold DdbStore.Save
    rw [if_pos h]
    rfl
  refine ⟨h1, ?_, ?_⟩
  · rw [h1]
    exact tableLookup_deleteItem_self t session.ID
  · intro e
    unfold DdbStore.Save
    rw [if_pos h]
    rfl

/-- C4, witnessed on a previously-saved record with MaxAge = -1. -/
theorem c4_save_nonpositive_maxage_erases_witness :
    DdbStore.Save (fun _ _ => .ok "enc") (fun _ _ => .ok "tok") 100 none none
      "FRESH" [("sid", [("uuid", .S "sid")])] ⟨"sid", "n", [], false, ⟨-1⟩⟩
      = ⟨deleteItem [("sid", [("uuid", .S "sid")])] "sid",
         ⟨"sid", "n", [], false, ⟨-1⟩⟩, [⟨"n", "", ⟨-1⟩⟩], none⟩
    ∧ tableLookup (DdbStore.Save (fun _ _ => .ok "enc") (fun _ _ => .ok "tok")
        100 none none "FRESH" [("sid", [("uuid", .S "sid")])]
        ⟨"sid", "n", [], false, ⟨-1⟩⟩).table "sid" = none
    ∧ DdbStore.Save (fun _ _ => .ok "enc") (fun _ _ => .ok "tok") 100
        (some "boom") none "FRESH" [("sid", [("uuid", .S "sid")])]
        ⟨"sid", "n", [], false, ⟨-1⟩⟩
        = ⟨[("sid", [("uuid", .S "sid")])], ⟨"sid", "n", [], false, ⟨-1⟩⟩, [],
           some "boom"⟩ := by
  have hc := c4_save_nonpositive_maxage_erases (fun _ _ => .ok "enc")
    (fun _ _ => .ok "tok") 100 none "FRESH" [("sid", [("uuid", .S "sid")])]
    ⟨"sid", "n", [], false, ⟨-1⟩⟩ (by decide)
  exact ⟨hc.1, hc.2.1, hc.2.2 "boom"⟩

/-- C5: Save mints an identifier exactly when the session's ID is empty and
MaxAge is positive: a non-empty ID is left unchanged by any Save, the
MaxAge ≤ 0 branch never mints, an empty ID with positive MaxAge becomes the
freshly generated identifier, and a second Save on the session returned by
that first minting Save reuses the same identifier. -/
theorem c5_save_identifier_minting
    (encodeValues : String → SessionValues → Except Err String)
    (encodeID : String → String → Except Err String) (now : Int)
    (delErr putErr : Option Err) (freshID : String) (t : Table)
    (session : Session) :
    (session.ID ≠ "" →
      (DdbStore.Save encodeValues encodeID now delErr putErr freshID t
          session).session.ID = session.ID)
    ∧ (session.Options.MaxAge ≤ 0 →
      (DdbStore.Save encodeValues encodeID now delErr putErr freshID t
          session).session.ID = session.ID)
    ∧ (session.ID = "" → 0 < session.Options.MaxAge →
      (DdbStore.Save encodeValues encodeID now delErr putErr freshID t
          session).session.ID = freshID)
    ∧ (session.ID = "" → 0 < session.Options.MaxAge → freshID ≠ "" →
      ∀ (ev2 : String → SessionValues → Except Err String)
        (ei2 : String → String → Except Err String) (now2 : Int)
        (de2 pe2 : Option Err) (fresh2 : String) (t2 : Table),
        (DdbStore.Save ev2 ei2 now2 de2 pe2 fresh2 t2
          (DdbStore.Save encodeValues encodeID now delErr putErr freshID t
            session).session).session.ID = freshID) := by
  have hs := DdbStore.Save_session encodeValues encodeID now delErr putErr
    freshID t session
  refine ⟨?_, ?_, ?_, ?_⟩
  · intro hid
    rw [hs]
    by_cases hma : session.Options.MaxAge ≤ 0
    · rw [if_pos hma]
    · rw [if_neg hma, if_neg hid]
  · intro hma
    rw [hs, if_pos hma]
  · intro hid hma0
    rw [hs, if_neg (not_le.mpr hma0), if_pos hid]
  · intro hid hma0 hfresh ev2 ei2 now2 de2 pe2 fresh2 t2
    have h1 : (DdbStore.Save encodeValues encodeID now delErr putErr freshID
        t session).session = { session with ID := freshID } := by
      rw [hs, if_neg (not_le.mpr hma0), if_pos hid]
    rw [DdbStore.Save_session, h1]
    by_cases hma2 :
        ({ session with ID := freshID } : Session).Options.MaxAge ≤ 0
    · rw [if_pos hma2]
    · rw [if_neg hma2, if_neg (show ¬ ({ session with ID := freshID } :
        Session).ID = "" from hfresh)]

/-- C5, witnessed: a non-empty ID survives Save unchanged; an empty ID with
positive MaxAge is replaced by the fresh identifier; the second Save on the
minted session reuses it. -/
theorem c5_save_identifier_minting_witness :
    (DdbStore.Save (fun _ _ => .ok "enc") (fun _ _ => .ok "tok") 100 none
      none "FRESH" [] ⟨"keep", "n", [], false, ⟨10⟩⟩).session.ID = "keep"
    ∧ (DdbStore.Save (fun _ _ => .ok "enc") (fun _ _ => .ok "tok") 100 none
      none "FRESH" [] ⟨"", "n", [], true, ⟨10⟩⟩).session.ID = "FRESH"
    ∧ (DdbStore.Save (fun _ _ => .ok "enc2") (fun _ _ => .ok "tok2") 200 none
      none "OTHER" []
      (DdbStore.Save (fun _ _ => .ok "enc") (fun _ _ => .ok "tok") 100 none
        none "FRESH" [] ⟨"", "n", [], true, ⟨10⟩⟩).session).session.ID
      = "FRESH" := by
  refine ⟨(c5_save_identifier_minting (fun _ _ => .ok "enc")
      (fun _ _ => .ok "tok") 100 none none "FRESH" []
      ⟨"keep", "n", [], false, ⟨10⟩⟩).1 (by decide),
    (c5_save_identifier_minting (fun _ _ => .ok "enc")
      (fun _ _ => .ok "tok") 100 none none "FRESH" []
      ⟨"", "n", [], true, ⟨10⟩⟩).2.2.1 rfl (by decide),
    (c5_save_identifier_minting (fun _ _ => .ok "enc")
      (fun _ _ => .ok "tok") 100 none none "FRESH" []
      ⟨"", "n", [], true, ⟨10⟩⟩).2.2.2 rfl (by decide) (by decide)
      (fun _ _ => .ok "enc2") (fun _ _ => .ok "tok2") 200 none none "OTHER"
      []⟩

/-- C6: when the payload encodes, save upserts the three-attribute item whose
expiration is now + expiryTime — a constant of the store (3600 seconds, the
60-minute retention window), independent of the session's Options (so of its
cookie MaxAge policy) — and the PutItem is an unconditional upsert with no
read-before-write: the resulting binding for the session's ID is the full new
item whatever the table previously held there, and every other key is left
unchanged. -/
theorem c6_save_expiration_constant_and_upsert
    (encodeValues : String → SessionValues → Except Err String) (now : Int)
    (t : Table) (session : Session) (encoded : String)
    (h : encodeValues session.name session.Values = .ok encoded) :
    DdbStore.save encodeValues now none t session
      = .ok (putItem t session.ID
          [(dynamodbUuidColumnName, .S session.ID),
           (dynamodbExpirationColumnName, .N (toString (now + expiryTime))),
           (dynamodbDataColumnName, .S encoded)])
    ∧ tableLookup (putItem t session.ID
          [(dynamodbUuidColumnName, .S session.ID),
           (dynamodbExpirationColumnName, .N (toString (now + expiryTime))),
           (dynamodbDataColumnName, .S encoded)]) session.ID
      = some [(dynamodbUuidColumnName, .S session.ID),
           (dynamodbExpirationColumnName, .N (toString (now + expiryTime))),
           (dynamodbDataColumnName, .S encoded)]
    ∧ (∀ k, k ≠ session.ID →
        tableLookup (putItem t session.ID
          [(dynamodbUuidColumnName, .S session.ID),
           (dynamodbExpirationColumnName, .N (toString (now + expiryTime))),
           (dynamodbDataColumnName, .S encoded)]) k = tableLookup t k)
    ∧ (∀ o : sessions.Options,
        DdbStore.save encodeValues now none t { session with Options := o }
          = DdbStore.save encodeValues now none t session)
    ∧ expiryTime = 3600 := by
  refine ⟨?_, tableLookup_putItem_self t session.ID _, ?_, ?_, by decide⟩
  · simp only [DdbStore.save, h]
  · intro k hk
    exact tableLookup_putItem_ne t session.ID k _ hk
  · intro o
    rfl

/-- C6, witnessed at a concrete session and encoder. -/
theorem c6_save_expiration_constant_and_upsert_witness :
    DdbStore.save (fun _ _ => .ok "payload") 100 none
      [("sid", [("uuid", .S "old")])] ⟨"sid", "n", [("a", "b")], false, ⟨7⟩⟩
      = .ok (putItem [("sid", [("uuid", .S "old")])] "sid"
          [(dynamodbUuidColumnName, .S "sid"),
           (dynamodbExpirationColumnName, .N (toString (100 + expiryTime))),
           (dynamodbDataColumnName, .S "payload")])
    ∧ expiryTime = 3600 := by
  have hc := c6_save_expiration_constant_and_upsert (fun _ _ => .ok "payload")
    100 [("sid", [("uuid", .S "old")])] ⟨"sid", "n", [("a", "b")], false, ⟨7⟩⟩
    "payload" rfl
  exact ⟨hc.1, hc.2.2.2.2⟩

/-- C7: when encoding the session's values fails, Save returns exactly that
encoding error, leaves the table untouched (no partial backend write), and
sets no response cookie — for any session on the positive-MaxAge save path,
whether or not its identifier still had to be minted. -/
theorem c7_save_encoding_error_no_write
    (encodeValues : String → SessionValues → Except Err String)
    (encodeID : String → String → Except Err String) (now : Int)
    (delErr putErr : Option Err) (freshID : String) (t : Table)
    (session : Session) (e : Err)
    (hma : 0 < session.Options.MaxAge)
    (h : encodeValues session.name session.Values = .error e) :
    (DdbStore.Save encodeValues encodeID now delErr putErr freshID t
        session).err = some e
    ∧ (DdbStore.Save encodeValues encodeID now delErr putErr freshID t
        session).table = t
    ∧ (DdbStore.Save encodeValues encodeID now delErr putErr freshID t
        session).cookies = [] := by
  have hsave : ∀ s2 : Session, s2.name = session.name →
      s2.Values = session.Values →
      DdbStore.save encodeValues now putErr t s2 = .error e := by
    intro s2 hn hv
    unfold DdbStore.save
    rw [hn, hv, h]
  have hfull : DdbStore.Save encodeValues encodeID now delErr putErr freshID
      t session
      = ⟨t, if session.ID = "" then { session with ID := freshID }
            else session, [], some e⟩ := by
    simp only [DdbStore.Save]
    rw [if_neg (not_le.mpr hma)]
    by_cases hid : session.ID = ""
    · rw [if_pos hid, hsave { session with ID := freshID } rfl rfl]
    · rw [if_neg hid, hsave session rfl rfl]
  rw [hfull]
  exact ⟨rfl, rfl, rfl⟩

/-- C7, witnessed at a concrete failing encoder (payload over max-length). -/
theorem c7_save_encoding_error_no_write_witness :
    (DdbStore.Save (fun _ _ => .error "payload too large")
      (fun _ _ => .ok "tok") 100 none none "FRESH"
      [("sid", [("uuid", .S "old")])]
      ⟨"sid", "n", [("a", "b")], false, ⟨10⟩⟩).err = some "payload too large"
    ∧ (DdbStore.Save (fun _ _ => .error "payload too large")
      (fun _ _ => .ok "tok") 100 none none "FRESH"
      [("sid", [("uuid", .S "old")])]
      ⟨"sid", "n", [("a", "b")], false, ⟨10⟩⟩).table
      = [("sid", [("uuid", .S "old")])]
    ∧ (DdbStore.Save (fun _ _ => .error "payload too large")
      (fun _ _ => .ok "tok") 100 none none "FRESH"
      [("sid", [("uuid", .S "old")])]
      ⟨"sid", "n", [("a", "b")], false, ⟨10⟩⟩).cookies = [] :=
  c7_save_encoding_error_no_write (fun _ _ => .error "payload too large")
    (fun _ _ => .ok "tok") 100 none none "FRESH"
    [("sid", [("uuid", .S "old")])] ⟨"sid", "n", [("a", "b")], false, ⟨10⟩⟩
    "payload too large" (by decide) rfl

/-- C8: ensureTable issues DescribeTable first; exactly when it reports
ResourceNotFoundException does a CreateTable follow — with the single string
partition key (uuid, scalar type S, key role HASH) and on-demand
(pay-per-request) billing — then the fixed 10-second grace wait, then
UpdateTimeToLive enabling expiry on the expiration attribute. A successful
describe does nothing further; any other describe error is returned with no
create; a create or TTL-enable failure is returned as-is, each call issued at
most once (no retry), the TTL call only after a successful create. -/
theorem c8_ensureTable_provisioning (tn : String) (e : Err)
    (ce te : Option Err) :
    DdbStore.ensureTable tn .ok ce te = ([.describeTable tn], none)
    ∧ DdbStore.ensureTable tn (.otherErr e) ce te
      = ([.describeTable tn], some e)
    ∧ DdbStore.ensureTable tn .notFound none none
      = ([.describeTable tn,
          .createTable tn [(dynamodbUuidColumnName, .S)]
            [(dynamodbUuidColumnName, .HASH)] .PAY_PER_REQUEST,
          .sleepSeconds 10,
          .updateTimeToLive tn dynamodbExpirationColumnName true], none)
    ∧ DdbStore.ensureTable tn .notFound (some e) te
      = ([.describeTable tn,
          .createTable tn [(dynamodbUuidColumnName, .S)]
            [(dynamodbUuidColumnName, .HASH)] .PAY_PER_REQUEST], some e)
    ∧ DdbStore.ensureTable tn .notFound none (some e)
      = ([.describeTable tn,
          .createTable tn [(dynamodbUuidColumnName, .S)]
            [(dynamodbUuidColumnName, .HASH)] .PAY_PER_REQUEST,
          .sleepSeconds 10,
          .updateTimeToLive tn dynamodbExpirationColumnName true], some e)
    ∧ ∀ d : DescribeResult,
        ((DdbStore.ensureTable tn d ce te).1.any DdbCall.isCreateTable
          = true) ↔ d = .notFound := by
  refine ⟨rfl, rfl, rfl, rfl, rfl, ?_⟩
  intro d
  cases d with
  | ok => simp [DdbStore.ensureTable, DdbCall.isCreateTable]
  | notFound =>
    cases ce <;> cases te <;>
      simp [DdbStore.ensureTable, DdbStore.createTable, DdbCall.isCreateTable]
  | otherErr e2 => simp [DdbStore.ensureTable, DdbCall.isCreateTable]

/-- C10: under the heap model of Options pointers, New's copy (lines 85-87)
allocates a fresh cell distinct from the store's, holding an equal value;
writing any Options through the session's pointer leaves the store's default
Options unchanged and leaves every other cell — so every other session's
Options — unchanged; and the store-level MaxAge setter does mutate the shared
defaults through the store's pointer while leaving the session's copy
untouched. -/
theorem c10_new_session_options_copy (h : OptionsHeap) (storeAddr : Nat)
    (o : sessions.Options) (age : Int) (hlt : storeAddr < h.length) :
    (newSessionOptionsAlloc h storeAddr).2 ≠ storeAddr
    ∧ heapGet (newSessionOptionsAlloc h storeAddr).1
        (newSessionOptionsAlloc h storeAddr).2 = heapGet h storeAddr
    ∧ heapGet (heapSet (newSessionOptionsAlloc h storeAddr).1
        (newSessionOptionsAlloc h storeAddr).2 o) storeAddr
      = heapGet h storeAddr
    ∧ (∀ b, b ≠ (newSessionOptionsAlloc h storeAddr).2 →
        heapGet (heapSet (newSessionOptionsAlloc h storeAddr).1
          (newSessionOptionsAlloc h storeAddr).2 o) b
        = heapGet (newSessionOptionsAlloc h storeAddr).1 b)
    ∧ (heapGet (DdbStore.MaxAge (newSessionOptionsAlloc h storeAddr).1
        storeAddr age) storeAddr).MaxAge = age
    ∧ heapGet (DdbStore.MaxAge (newSessionOptionsAlloc h storeAddr).1
        storeAddr age) (newSessionOptionsAlloc h storeAddr).2
      = heapGet h storeAddr := by
  have hlt2 : storeAddr < (h ++ [heapGet h storeAddr]).length := by
    simp only [List.length_append, List.length_cons, List.length_nil]
    omega
  refine ⟨Nat.ne_of_gt hlt, heapGet_alloc_fresh h _, ?_, ?_, ?_, ?_⟩
  · show heapGet (heapSet (h ++ [heapGet h storeAddr]) h.length o) storeAddr
      = heapGet h storeAddr
    rw [heapGet_set_ne _ _ _ _ (Nat.ne_of_gt hlt)]
    exact heapGet_append_lt h _ storeAddr hlt
  · intro b hb
    exact heapGet_set_ne _ _ _ _ (fun hh => hb hh.symm)
  · show (heapGet (heapSet (h ++ [heapGet h storeAddr]) storeAddr
      { heapGet (h ++ [heapGet h storeAddr]) storeAddr with MaxAge := age })
      storeAddr).MaxAge = age
    rw [heapGet_set_self _ _ _ hlt2]
  · show heapGet (heapSet (h ++ [heapGet h storeAddr]) storeAddr
      { heapGet (h ++ [heapGet h storeAddr]) storeAddr with MaxAge := age })
      h.length = heapGet h storeAddr
    rw [heapGet_set_ne _ _ _ _ (Nat.ne_of_lt hlt)]
    exact heapGet_alloc_fresh h _

/-- C10, witnessed on a two-cell heap: the store's defaults live at address
0, the session's copy is allocated at address 2. -/
theorem c10_new_session_options_copy_witness :
    (newSessionOptionsAlloc [⟨5⟩, ⟨7⟩] 0).2 ≠ 0
    ∧ heapGet (newSessionOptionsAlloc [⟨5⟩, ⟨7⟩] 0).1
        (newSessionOptionsAlloc [⟨5⟩, ⟨7⟩] 0).2 = heapGet [⟨5⟩, ⟨7⟩] 0
    ∧ heapGet (heapSet (newSessionOptionsAlloc [⟨5⟩, ⟨7⟩] 0).1
        (newSessionOptionsAlloc [⟨5⟩, ⟨7⟩] 0).2 ⟨9⟩) 0 = heapGet [⟨5⟩, ⟨7⟩] 0
    ∧ heapGet (heapSet (newSessionOptionsAlloc [⟨5⟩, ⟨7⟩] 0).1
        (newSessionOptionsAlloc [⟨5⟩, ⟨7⟩] 0).2 ⟨9⟩) 1
      = heapGet (newSessionOptionsAlloc [⟨5⟩, ⟨7⟩] 0).1 1
    ∧ (heapGet (DdbStore.MaxAge (newSessionOptionsAlloc [⟨5⟩, ⟨7⟩] 0).1 0 3)
        0).MaxAge = 3
    ∧ heapGet (DdbStore.MaxAge (newSessionOptionsAlloc [⟨5⟩, ⟨7⟩] 0).1 0 3)
        (newSessionOptionsAlloc [⟨5⟩, ⟨7⟩] 0).2 = heapGet [⟨5⟩, ⟨7⟩] 0 := by
  have hc := c10_new_session_options_copy [⟨5⟩, ⟨7⟩] 0 ⟨9⟩ 3 (by decide)
  exact ⟨hc.1, hc.2.1, hc.2.2.1, hc.2.2.2.1 1 (by decide), hc.2.2.2.2.1,
    hc.2.2.2.2.2⟩
